import Mathlib

/-!
Verification of the transcription formatting and prediction glue code of the
worker-faster_whisper repository (src/predict.py), against its natural-language
specification.

Embedding conventions:
* Python strings are Lean `String`s; the Python string methods used by the code
  (`strip`, `lstrip`, `replace`, `join`) are embedded below as fuel-indexed
  structural recursions over `List Char` so that all of them reduce in the kernel.
* Python floats carrying time offsets are embedded as exact values: segment
  `start`/`end` offsets are stored in milliseconds (`Nat`), which represents
  exactly every value the specification exercises; other float-valued decoding
  parameters are embedded as rationals (`ℚ`).
* The external model call `model.transcribe` is an oracle argument
  `TranscribeCall → List Segment × TranscriptionInfo`; `predict` additionally
  returns the trace of transcribe calls it issued, so that claims about which
  inference calls happen (and with which arguments) are statable.
-/

/-- Python `str.isspace` on the ASCII whitespace characters relevant to
`strip`/`lstrip` (space, tab, newline, carriage return, vertical tab, form feed). -/
def pyIsSpace (c : Char) : Bool :=
  c = ' ' || c = Char.ofNat 9 || c = Char.ofNat 10 || c = Char.ofNat 13 ||
    c = Char.ofNat 11 || c = Char.ofNat 12

/-- Python `str.lstrip()` with no arguments: drop leading whitespace. -/
def pyLstrip (s : String) : String :=
  String.mk (s.data.dropWhile pyIsSpace)

/-- Python `str.strip()` with no arguments: drop leading and trailing whitespace. -/
def pyStrip (s : String) : String :=
  String.mk (((s.data.dropWhile pyIsSpace).reverse.dropWhile pyIsSpace).reverse)

/-- Fuel-indexed core of Python `str.replace`: scan left to right, and at each
position rewrite the leftmost occurrence of `pat` to `rep` and continue after it
(non-overlapping). The fuel is an upper bound on the scanned length; with
`fuel = s.length` it never runs out. -/
def replaceFuel (pat rep : List Char) : Nat → List Char → List Char
  | _, [] => []
  | 0, s => s
  | fuel + 1, c :: cs =>
    if pat.isPrefixOf (c :: cs) ∧ pat ≠ [] then
      rep ++ replaceFuel pat rep fuel (List.drop pat.length (c :: cs))
    else
      c :: replaceFuel pat rep fuel cs

/-- Python `s.replace(pat, rep)` for a non-empty pattern. -/
def pyReplace (s pat rep : String) : String :=
  String.mk (replaceFuel pat.data rep.data s.data.length s.data)

/-- Fuel-indexed core of Python `str.split(sep)`: split at each leftmost
non-overlapping occurrence of `pat`. -/
def splitFuel (pat : List Char) : Nat → List Char → List (List Char)
  | _, [] => [[]]
  | 0, s => [s]
  | fuel + 1, c :: cs =>
    if pat.isPrefixOf (c :: cs) ∧ pat ≠ [] then
      [] :: splitFuel pat fuel (List.drop pat.length (c :: cs))
    else
      match splitFuel pat fuel cs with
      | [] => [[c]]
      | h :: t => (c :: h) :: t

/-- Python `s.split(pat)` for a non-empty separator. -/
def pySplit (s pat : String) : List String :=
  (splitFuel pat.data s.data.length s.data).map String.mk

/-- Join a list of character lists with a separator, as Python `sep.join(parts)`. -/
def joinWith (sep : List Char) : List (List Char) → List Char
  | [] => []
  | [x] => x
  | x :: y :: rest => x ++ sep ++ joinWith sep (y :: rest)

/-- Python `pat in s` substring test. -/
def hasSub : List Char → List Char → Bool
  | s, pat =>
    pat.isPrefixOf s ||
      match s with
      | [] => false
      | _ :: t => hasSub t pat

/-- Python `pat in s` on strings. -/
def pyContains (s pat : String) : Bool :=
  hasSub s.data pat.data

/-- Zero-pad a natural number to width 2, as Python format `{:02d}`. -/
def pad2 (n : Nat) : String :=
  if n < 10 then "0" ++ toString n else toString n

/-- Zero-pad a natural number to width 3, as Python format `{:03d}`. -/
def pad3 (n : Nat) : String :=
  if n < 100 then (if n < 10 then "00" ++ toString n else "0" ++ toString n)
  else toString n

/-- Modelled from the spec: `format_timestamp` is imported from the external
library `faster_whisper.utils`, which is not part of this repository. The spec
states the rule: render `hours:minutes:seconds.fraction` with hours always
rendered when requested even if zero, a three-digit millisecond fraction, and a
configurable decimal separator. The input is the offset in milliseconds (the
exact value of the float seconds the code passes, times 1000). -/
def format_timestamp (milliseconds : Nat) (always_include_hours : Bool)
    (decimal_marker : String) : String :=
  let hours := milliseconds / 3600000
  let r1 := milliseconds % 3600000
  let minutes := r1 / 60000
  let r2 := r1 % 60000
  let seconds := r2 / 1000
  let millis := r2 % 1000
  let hours_marker := if always_include_hours || hours > 0 then pad2 hours ++ ":" else ""
  hours_marker ++ pad2 minutes ++ ":" ++ pad2 seconds ++ decimal_marker ++ pad3 millis

/-- A word-level timestamp entry of a segment (`faster_whisper` `Word`):
word text plus start/end offsets in milliseconds. -/
structure Word where
  word : String
  start : Nat
  end_ : Nat
deriving DecidableEq, Repr

/-- A transcription segment as produced by the external library and consumed by
this repository: identifier, seek offset, start/end offsets (milliseconds),
text, token ids, sampling temperature, average log-probability, compression
ratio, no-speech probability, and word entries (populated when word-level
timestamps were requested). -/
structure Segment where
  id : Int
  seek : Int
  start : Nat
  end_ : Nat
  text : String
  tokens : List Int
  temperature : ℚ
  avg_logprob : ℚ
  compression_ratio : ℚ
  no_speech_prob : ℚ
  words : List Word
deriving DecidableEq, Repr

/-- The arrow string rewritten inside subtitle text lines. -/
def arrowPat : String := "-->"

/-- `write_vtt` from src/predict.py: for each segment, a timestamp line with
always-shown hours and the default period decimal marker, then the stripped
text with occurrences of the arrow replaced, then a blank line. -/
def write_vtt (transcript : List Segment) : String :=
  match transcript with
  | [] => ""
  | segment :: rest =>
    format_timestamp segment.start true "." ++ " --> " ++
      format_timestamp segment.end_ true "." ++ "\n" ++
      pyReplace (pyStrip segment.text) arrowPat "->" ++ "\n" ++ "\n" ++
      write_vtt rest

/-- Helper for `write_srt`: blocks numbered from `i` (Python
`enumerate(transcript, start=1)` starts `i` at 1). -/
def srtBlocks (i : Nat) : List Segment → String
  | [] => ""
  | segment :: rest =>
    toString i ++ "\n" ++
      format_timestamp segment.start true "," ++ " --> " ++
      format_timestamp segment.end_ true "," ++ "\n" ++
      pyReplace (pyStrip segment.text) arrowPat "->" ++ "\n" ++ "\n" ++
      srtBlocks (i + 1) rest

/-- `write_srt` from src/predict.py: numbered blocks starting at index 1, comma
decimal marker, always-shown hours. -/
def write_srt (transcript : List Segment) : String :=
  srtBlocks 1 transcript

/-- `format_segments` from src/predict.py. Unknown selectors fall through to
the final `else` branch, which prints a warning and produces the plain-text
join. -/
def format_segments (format_type : String) (segments : List Segment) : String :=
  if format_type = "plain_text" then
    String.mk (joinWith " ".data (segments.map fun segment => (pyLstrip segment.text).data))
  else if format_type = "formatted_text" then
    String.mk (joinWith "\n".data (segments.map fun segment => (pyLstrip segment.text).data))
  else if format_type = "srt" then
    write_srt segments
  else if format_type = "vtt" then
    write_vtt segments
  else
    String.mk (joinWith " ".data (segments.map fun segment => (pyLstrip segment.text).data))

/-- The `else` branch of `format_segments` prints a warning: true exactly when
the selector is none of the four known formats. -/
def formatWarns (format_type : String) : Bool :=
  format_type ≠ "plain_text" ∧ format_type ≠ "formatted_text" ∧
    format_type ≠ "srt" ∧ format_type ≠ "vtt"

/-- A serialized segment dictionary, as built by `serialize_segments`. -/
structure SerializedSegment where
  id : Int
  seek : Int
  start : Nat
  end_ : Nat
  text : String
  tokens : List Int
  temperature : ℚ
  avg_logprob : ℚ
  compression_ratio : ℚ
  no_speech_prob : ℚ
deriving DecidableEq, Repr

/-- `serialize_segments` from src/predict.py: project each segment onto the ten
JSON-serializable fields. -/
def serialize_segments (transcript : List Segment) : List SerializedSegment :=
  transcript.map fun segment =>
    { id := segment.id
      seek := segment.seek
      start := segment.start
      end_ := segment.end_
      text := segment.text
      tokens := segment.tokens
      temperature := segment.temperature
      avg_logprob := segment.avg_logprob
      compression_ratio := segment.compression_ratio
      no_speech_prob := segment.no_speech_prob }

/-- The transcription metadata returned alongside the segments by the external
`model.transcribe`; only its detected language is consumed by this repository. -/
structure TranscriptionInfo where
  language : String
deriving DecidableEq, Repr

/-- `AVAILABLE_MODELS` from src/predict.py: only large-v2 is supported. -/
def AVAILABLE_MODELS : List String := ["large-v2"]

/-- A single ASCII apostrophe, as it appears in the Python `repr` of a set of
strings. -/
def squoteStr : String := String.mk [Char.ofNat 39]

/-- The Python `repr` of `AVAILABLE_MODELS` as interpolated into the
invalid-model error message by the f-string in `predict`. -/
def availableModelsRepr : String :=
  "\x7b" ++ squoteStr ++ "large-v2" ++ squoteStr ++ "\x7d"

/-- The loaded model object. Its behaviour (the `transcribe` method) is
supplied separately as an oracle, so the object itself carries no data. -/
structure Model where
deriving DecidableEq, Repr

/-- The `Predictor` state: `__init__` sets `self.model = None`; a successful
`setup` replaces it with the loaded model. The `model_lock` mutex guards only
the read of this reference and has no observable effect in a sequential
embedding. -/
structure Predictor where
  model : Option Model
deriving DecidableEq, Repr

/-- `Predictor.__init__`: no model loaded. -/
def Predictor.init : Predictor := { model := none }

/-- `Predictor.setup`, parameterized by the outcome of the external
`WhisperModel` constructor call: on success the model reference is set; on
failure the exception is re-raised as a `RuntimeError` with the setup-failure
message and the reference stays as it was (unset for a fresh predictor). -/
def Predictor.setup (st : Predictor) (load : Except String Model) :
    Except String Predictor :=
  match load with
  | .ok m => .ok { st with model := some m }
  | .error e => .error ("Failed to load large-v2 model during setup: " ++ e)

/-- The arguments of `Predictor.predict`, with the same defaults as the Python
signature. Floats are embedded as rationals; `audio` is the string the code
passes to `transcribe` via `str(audio)`; `vad_parameters` is an opaque payload
embedded as an optional string. -/
structure PredictArgs where
  audio : String
  model_name : String := "base"
  transcription : String := "plain_text"
  translate : Bool := false
  translation : String := "plain_text"
  language : Option String := none
  temperature : ℚ := 0
  best_of : Nat := 5
  beam_size : Nat := 5
  patience : ℚ := 1
  length_penalty : Option ℚ := none
  suppress_tokens : String := "-1"
  initial_prompt : Option String := none
  condition_on_previous_text : Bool := true
  temperature_increment_on_fallback : Option ℚ := some (1 / 5)
  compression_ratio_threshold : ℚ := 12 / 5
  logprob_threshold : ℚ := -1
  no_speech_threshold : ℚ := 3 / 5
  enable_vad : Bool := false
  vad_parameters : Option String := none
  word_timestamps : Bool := false
deriving DecidableEq, Repr

/-- Modelled from the spec: `numpy.arange(start, stop, step)` is external. For
a non-zero step it yields `start + i * step` for `i` below
`ceil((stop - start) / step)` (empty when that bound is not positive); the
step-zero case raises in numpy and is never reached by the code's defaults. -/
def np_arange (start stop step : ℚ) : List ℚ :=
  if step = 0 then []
  else (List.range (Int.toNat ⌈(stop - start) / step⌉)).map fun i => start + i * step

/-- The temperature configuration computed by `predict` before the transcribe
call: a fallback ladder `np.arange(temperature, 1.0 + 1e-6, increment)` when an
increment is given, otherwise the single-element list. -/
def temperatureSettings (a : PredictArgs) : List ℚ :=
  match a.temperature_increment_on_fallback with
  | some inc => np_arange a.temperature (1 + 1 / 1000000) inc
  | none => [a.temperature]

/-- One invocation of the external `model.transcribe`. The two call sites of
src/predict.py pass different argument lists: the transcription pass spells out
the full decoding configuration (with the literal constants the code hardcodes:
`task="transcribe"`, `prefix=None`, `suppress_blank=True`,
`suppress_tokens=[-1]`, `without_timestamps=False`,
`max_initial_timestamp=1.0`); the translation pass passes only the audio, the
task flag and the temperature configuration, leaving the rest to library
defaults. -/
inductive TranscribeCall where
  | full
      (audio : String)
      (language : Option String)
      (task : String)
      (beam_size : Nat)
      (best_of : Nat)
      (patience : ℚ)
      (length_penalty : Option ℚ)
      (temperature : List ℚ)
      (compression_ratio_threshold : ℚ)
      (log_prob_threshold : ℚ)
      (no_speech_threshold : ℚ)
      (condition_on_previous_text : Bool)
      (initial_prompt : Option String)
      (suppress_blank : Bool)
      (suppress_tokens : List Int)
      (without_timestamps : Bool)
      (max_initial_timestamp : ℚ)
      (word_timestamps : Bool)
      (vad_filter : Bool)
      (vad_parameters : Option String)
  | short
      (audio : String)
      (task : String)
      (temperature : List ℚ)
deriving DecidableEq, Repr

/-- The suppression token list a `full` transcribe call was issued with. -/
def TranscribeCall.suppressTokensOf : TranscribeCall → Option (List Int)
  | .full _ _ _ _ _ _ _ _ _ _ _ _ _ _ st _ _ _ _ _ => some st
  | .short _ _ _ => none

/-- The task flag of a transcribe call. -/
def TranscribeCall.taskOf : TranscribeCall → String
  | .full _ _ task _ _ _ _ _ _ _ _ _ _ _ _ _ _ _ _ _ => task
  | .short _ task _ => task

/-- The temperature configuration of a transcribe call. -/
def TranscribeCall.temperatureOf : TranscribeCall → List ℚ
  | .full _ _ _ _ _ _ _ temp _ _ _ _ _ _ _ _ _ _ _ _ => temp
  | .short _ _ temp => temp

/-- The transcription pass issued by `predict` for arguments `a`. -/
def mainCall (a : PredictArgs) : TranscribeCall :=
  .full a.audio a.language "transcribe" a.beam_size a.best_of a.patience
    a.length_penalty (temperatureSettings a) a.compression_ratio_threshold
    a.logprob_threshold a.no_speech_threshold a.condition_on_previous_text
    a.initial_prompt true [-1] false 1 a.word_timestamps a.enable_vad
    a.vad_parameters

/-- The translation pass issued by `predict` when `translate` is requested. -/
def translateCall (a : PredictArgs) : TranscribeCall :=
  .short a.audio "translate" (temperatureSettings a)

/-- A flattened word-timestamp entry of the result mapping. -/
structure WordEntry where
  word : String
  start : Nat
  end_ : Nat
deriving DecidableEq, Repr

/-- The result mapping built by a successful `predict` call. The
`word_timestamps` key is present (`some`) exactly when it was requested. -/
structure PredictResults where
  segments : List SerializedSegment
  detected_language : String
  transcription : String
  translation : Option String
  device : String
  model : String
  word_timestamps : Option (List WordEntry)
deriving DecidableEq, Repr

/-- The two exceptions `predict` raises itself: the `ValueError` for an
unsupported model name, and the `RuntimeError` when no model is loaded. -/
inductive PredictError where
  | invalidModel (msg : String)
  | modelNotLoaded (msg : String)
deriving DecidableEq, Repr

/-- The word-timestamp flattening loop of `predict`: for each segment in
order, for each of its words in order, a `{word, start, end}` entry. -/
def flattenWords (segments : List Segment) : List WordEntry :=
  (segments.map fun segment =>
    segment.words.map fun w =>
      ({ word := w.word, start := w.start, end_ := w.end_ } : WordEntry)).flatten

/-- `Predictor.predict` from src/predict.py, parameterized by the external
`model.transcribe` behaviour (`oracle`) and by `rp_cuda.is_available()`
(`cuda`). Besides the outcome it returns the list of transcribe calls issued,
in order, so that claims about which inference calls happen are statable.
Mirrors the source: the model-name check comes first, then the model-loaded
check under the lock, then the temperature configuration, the transcription
pass, the optional translation pass, and the result mapping. -/
def Predictor.predict (st : Predictor) (a : PredictArgs)
    (oracle : TranscribeCall → List Segment × TranscriptionInfo) (cuda : Bool) :
    Except PredictError PredictResults × List TranscribeCall :=
  if a.model_name ∉ AVAILABLE_MODELS then
    (.error (.invalidModel ("Invalid model name: " ++ a.model_name ++
      ". Available models are: " ++ availableModelsRepr)), [])
  else
    match st.model with
    | none =>
      (.error (.modelNotLoaded "Model not loaded. Ensure setup() was called successfully."), [])
    | some _ =>
      let call1 := mainCall a
      let (segments, info) := oracle call1
      let transcription_output := format_segments a.transcription segments
      let (translation_output, extraCalls) :=
        if a.translate then
          let call2 := translateCall a
          let (translation_segments, _) := oracle call2
          (some (format_segments a.translation translation_segments), [call2])
        else
          (none, [])
      let results : PredictResults :=
        { segments := serialize_segments segments
          detected_language := info.language
          transcription := transcription_output
          translation := translation_output
          device := if cuda then "cuda" else "cpu"
          model := a.model_name
          word_timestamps :=
            if a.word_timestamps then some (flattenWords segments) else none }
      (.ok results, call1 :: extraCalls)

/-! ## Spec-side definitions

These follow the wording of the specification (and, for the refuted part of
claim C1, the wording of the claim), to be compared with the definitions
embedded from the source above. -/

/-- Concatenation of a list of strings, in order. -/
def concatAll : List String → String
  | [] => ""
  | s :: rest => s ++ concatAll rest

/-- The spec's timestamp rule, stated positionally: hours, then minutes,
seconds and the three-digit millisecond fraction of the offset, hours always
shown, with a configurable decimal separator. -/
def specTimestamp (ms : Nat) (marker : String) : String :=
  pad2 (ms / 3600000) ++ ":" ++ pad2 (ms / 60000 % 60) ++ ":" ++
    pad2 (ms / 1000 % 60) ++ marker ++ pad3 (ms % 1000)

/-- The subtitle text line per the spec: the segment text trimmed, with literal
arrow substrings replaced. -/
def specTextLine (seg : Segment) : String :=
  pyReplace (pyStrip seg.text) arrowPat "->"

/-- An srt block as claim C1 literally states it: index line, timestamp line,
then the segment text merely stripped of surrounding whitespace (no arrow
replacement), then a blank line. -/
def srtClaimBlock (idx : Nat) (seg : Segment) : String :=
  toString idx ++ "\n" ++
    specTimestamp seg.start "," ++ " --> " ++ specTimestamp seg.end_ "," ++ "\n" ++
    pyStrip seg.text ++ "\n" ++ "\n"

/-- The srt output as claim C1 literally states it: the concatenation, per
segment in order, of `srtClaimBlock` with a 1-based index. -/
def srtClaimOutput (segments : List Segment) : String :=
  concatAll (segments.mapIdx fun k seg => srtClaimBlock (k + 1) seg)

/-- An srt block per the spec: index line, comma-separated timestamp line,
trimmed-and-arrow-replaced text line, blank line. -/
def srtSpecBlock (idx : Nat) (seg : Segment) : String :=
  toString idx ++ "\n" ++
    specTimestamp seg.start "," ++ " --> " ++ specTimestamp seg.end_ "," ++ "\n" ++
    specTextLine seg ++ "\n" ++ "\n"

/-- The srt output per the spec: the concatenation, per segment in order, of
`srtSpecBlock` with a 1-based index. -/
def srtSpecOutput (segments : List Segment) : String :=
  concatAll (segments.mapIdx fun k seg => srtSpecBlock (k + 1) seg)

/-- A vtt block per the spec: the srt block structure without the numeric
index line and with a period decimal separator. -/
def vttSpecBlock (seg : Segment) : String :=
  specTimestamp seg.start "." ++ " --> " ++ specTimestamp seg.end_ "." ++ "\n" ++
    specTextLine seg ++ "\n" ++ "\n"

/-- The vtt output per the spec: the concatenation of `vttSpecBlock` per
segment in order. -/
def vttSpecOutput (segments : List Segment) : String :=
  concatAll (segments.map vttSpecBlock)

/-- Joining a list of strings with a separator, per the spec's wording for
the text formats. -/
def joinedBy (sep : String) (parts : List String) : String :=
  String.mk (List.intercalate sep.data (parts.map String.data))

/-- Rewriting every occurrence of the literal arrow per the claim: split the
string at each leftmost non-overlapping occurrence of the arrow and join the
parts with the shortened arrow. -/
def rewriteEveryArrow (s : String) : String :=
  String.mk (joinWith "->".data (splitFuel arrowPat.data s.data.length s.data))

/-! ## Infrastructure lemmas -/

theorem splitFuel_ne_nil (pat : List Char) :
    ∀ (fuel : Nat) (s : List Char), splitFuel pat fuel s ≠ [] := by
  intro fuel
  induction fuel with
  | zero =>
    intro s
    cases s <;> simp [splitFuel]
  | succ f ih =>
    intro s
    cases s with
    | nil => simp [splitFuel]
    | cons c cs =>
      by_cases hc : pat.isPrefixOf (c :: cs) ∧ pat ≠ []
      · simp [splitFuel, hc]
      · simp only [splitFuel, if_neg hc]
        cases h : splitFuel pat f cs <;> simp

theorem replaceFuel_eq_joinWith_splitFuel (pat rep : List Char) :
    ∀ (fuel : Nat) (s : List Char),
      replaceFuel pat rep fuel s = joinWith rep (splitFuel pat fuel s) := by
  intro fuel
  induction fuel with
  | zero =>
    intro s
    cases s <;> simp [replaceFuel, splitFuel, joinWith]
  | succ f ih =>
    intro s
    cases s with
    | nil => simp [replaceFuel, splitFuel, joinWith]
    | cons c cs =>
      by_cases hc : pat.isPrefixOf (c :: cs) ∧ pat ≠ []
      · simp only [replaceFuel, splitFuel, if_pos hc]
        rw [ih]
        cases hl : splitFuel pat f (List.drop pat.length (c :: cs)) with
        | nil => exact absurd hl (splitFuel_ne_nil pat f _)
        | cons x xs => simp [joinWith]
      · simp only [replaceFuel, splitFuel, if_neg hc]
        rw [ih]
        cases hl : splitFuel pat f cs with
        | nil => exact absurd hl (splitFuel_ne_nil pat f cs)
        | cons x xs => cases xs <;> simp [joinWith]

theorem pyReplace_arrow_eq_rewriteEveryArrow (s : String) :
    pyReplace s arrowPat "->" = rewriteEveryArrow s := by
  unfold pyReplace rewriteEveryArrow
  rw [replaceFuel_eq_joinWith_splitFuel]

theorem joinWith_eq_intercalate (sep : List Char) :
    ∀ (l : List (List Char)), joinWith sep l = List.intercalate sep l := by
  intro l
  induction l with
  | nil => simp [joinWith, List.intercalate]
  | cons x xs ih =>
    cases xs with
    | nil => simp [joinWith, List.intercalate]
    | cons y ys =>
      have hcc : List.intercalate sep (x :: y :: ys) =
          x ++ sep ++ List.intercalate sep (y :: ys) := by
        simp [List.intercalate, List.intersperse]
      rw [hcc]
      simp only [joinWith]
      rw [ih, List.append_assoc]

theorem concatAll_append (xs ys : List String) :
    concatAll (xs ++ ys) = concatAll xs ++ concatAll ys := by
  induction xs with
  | nil => simp [concatAll]
  | cons x xs ih => simp [concatAll, ih, String.append_assoc]

theorem format_timestamp_eq_specTimestamp (ms : Nat) (marker : String) :
    format_timestamp ms true marker = specTimestamp ms marker := by
  have h1 : ms % 3600000 / 60000 = ms / 60000 % 60 := by
    have := Nat.mod_mul_right_div_self ms 60000 60
    norm_num at this
    exact this
  have h2 : ms % 3600000 % 60000 = ms % 60000 := Nat.mod_mod_of_dvd ms (by norm_num)
  have h3 : ms % 60000 / 1000 = ms / 1000 % 60 := by
    have := Nat.mod_mul_right_div_self ms 1000 60
    norm_num at this
    exact this
  have h4 : ms % 60000 % 1000 = ms % 1000 := Nat.mod_mod_of_dvd ms (by norm_num)
  simp only [format_timestamp, specTimestamp, h1, h2, h3, h4, Bool.true_or, if_pos]

theorem srtBlocks_eq_spec (segments : List Segment) :
    ∀ i : Nat, srtBlocks i segments =
      concatAll (segments.mapIdx fun k seg => srtSpecBlock (i + k) seg) := by
  induction segments with
  | nil =>
    intro i
    simp [srtBlocks, concatAll]
  | cons s rest ih =>
    intro i
    have hfun : (fun k seg => srtSpecBlock (i + (k + 1)) seg) =
        fun k seg => srtSpecBlock (i + 1 + k) seg := by
      funext k seg
      congr 1
      omega
    have hmap : (List.mapIdx (fun k seg => srtSpecBlock (i + k) seg) (s :: rest)) =
        srtSpecBlock i s ::
          List.mapIdx (fun k seg => srtSpecBlock (i + 1 + k) seg) rest := by
      simp only [List.mapIdx_cons, Nat.add_zero, hfun]
    rw [hmap]
    simp only [concatAll]
    rw [← ih (i + 1)]
    simp only [srtBlocks, srtSpecBlock, specTextLine,
      format_timestamp_eq_specTimestamp, String.append_assoc]

theorem write_vtt_eq_spec (segments : List Segment) :
    write_vtt segments = vttSpecOutput segments := by
  induction segments with
  | nil => simp [write_vtt, vttSpecOutput, concatAll]
  | cons s rest ih =>
    simp only [write_vtt, vttSpecOutput, List.map_cons, concatAll] at ih ⊢
    rw [ih]
    simp only [vttSpecBlock, specTextLine, format_timestamp_eq_specTimestamp,
      String.append_assoc]

theorem srtBlocks_append (pre : List Segment) :
    ∀ (i : Nat) (post : List Segment),
      srtBlocks i (pre ++ post) = srtBlocks i pre ++ srtBlocks (i + pre.length) post := by
  induction pre with
  | nil =>
    intro i post
    simp [srtBlocks]
  | cons s rest ih =>
    intro i post
    simp only [List.cons_append, srtBlocks, List.length_cons, List.append_eq]
    rw [ih (i + 1) post]
    have : i + 1 + rest.length = i + (rest.length + 1) := by omega
    rw [this]
    simp [String.append_assoc]

theorem write_vtt_append (pre post : List Segment) :
    write_vtt (pre ++ post) = write_vtt pre ++ write_vtt post := by
  induction pre with
  | nil => simp [write_vtt]
  | cons s rest ih =>
    simp only [List.cons_append, write_vtt, List.append_eq]
    rw [ih]
    simp [String.append_assoc]

theorem predict_loaded (st : Predictor) (a : PredictArgs)
    (oracle : TranscribeCall → List Segment × TranscriptionInfo) (cuda : Bool)
    (m : Model) (hm : st.model = some m) (hname : a.model_name ∈ AVAILABLE_MODELS) :
    st.predict a oracle cuda =
      (.ok { segments := serialize_segments (oracle (mainCall a)).1
             detected_language := (oracle (mainCall a)).2.language
             transcription := format_segments a.transcription (oracle (mainCall a)).1
             translation :=
               if a.translate then
                 some (format_segments a.translation (oracle (translateCall a)).1)
               else none
             device := if cuda then "cuda" else "cpu"
             model := a.model_name
             word_timestamps :=
               if a.word_timestamps then some (flattenWords (oracle (mainCall a)).1)
               else none },
       mainCall a :: if a.translate then [translateCall a] else []) := by
  unfold Predictor.predict
  rw [if_neg (not_not_intro hname), hm]
  cases ht : a.translate <;> simp [ht]

theorem predict_trace_cases (st : Predictor) (a : PredictArgs)
    (oracle : TranscribeCall → List Segment × TranscriptionInfo) (cuda : Bool) :
    (st.predict a oracle cuda).2 = [] ∨
      (st.predict a oracle cuda).2 = [mainCall a] ∨
      (st.predict a oracle cuda).2 = [mainCall a, translateCall a] := by
  unfold Predictor.predict
  by_cases h : a.model_name ∉ AVAILABLE_MODELS
  · rw [if_pos h]
    left
    rfl
  · rw [if_neg h]
    cases st.model with
    | none =>
      left
      rfl
    | some m =>
      cases ht : a.translate
      · right
        left
        simp [ht]
      · right
        right
        simp [ht]

/-! ## Concrete inputs used by the witnesses and counterexamples -/

/-- The segment singled out by the spec: start 0s, end 1.5s (1500ms), text
with surrounding whitespace. -/
def demoSegment : Segment :=
  { id := 0
    seek := 0
    start := 0
    end_ := 1500
    text := " Hello world "
    tokens := []
    temperature := 0
    avg_logprob := 0
    compression_ratio := 0
    no_speech_prob := 0
    words := [] }

/-- A segment whose text contains the literal arrow. -/
def arrowSegment : Segment :=
  { demoSegment with text := " a --> b " }

/-! ## Claims -/

/-- Claim C1, amended: for every segment sequence, the srt output is the
concatenation, per segment in order, of a block consisting of a 1-based index
line, a start --> end timestamp line with always-shown hours and comma decimal
separator, the segment text stripped of surrounding whitespace and with each
literal arrow occurrence replaced by the shortened arrow, and a blank line; in
particular the segment with start 0, end 1.5s and text " Hello world " yields
the stated block. -/
theorem srt_block_structure :
    (∀ segments : List Segment, write_srt segments = srtSpecOutput segments) ∧
      write_srt [demoSegment] = "1\n00:00:00,000 --> 00:00:01,500\nHello world\n\n" := by
  constructor
  · intro segments
    unfold write_srt srtSpecOutput
    rw [srtBlocks_eq_spec segments 1]
    have hfun : (fun k seg => srtSpecBlock (1 + k) seg) =
        fun k seg => srtSpecBlock (k + 1) seg := by
      funext k seg
      rw [Nat.add_comm]
    rw [hfun]
  · decide

/-- Claim C1, counterexample to the claim as stated: for a segment whose text
contains the literal arrow, the srt text line is not merely the stripped text,
so the stated block shape is refuted at this input. -/
theorem srt_claim_as_stated_false :
    write_srt [arrowSegment] ≠ srtClaimOutput [arrowSegment] := by
  decide

/-- Claim C2: for every segment sequence the vtt output has the same block
structure as srt but with no index line and a period decimal separator; the
demo segment yields the stated timestamp line. -/
theorem vtt_block_structure :
    (∀ segments : List Segment, write_vtt segments = vttSpecOutput segments) ∧
      write_vtt [demoSegment] = "00:00:00.000 --> 00:00:01.500\nHello world\n\n" := by
  exact ⟨write_vtt_eq_spec, by decide⟩

/-- Claim C3: the formatted_text output equals the segments' texts, each
left-trimmed, joined by the newline character, in segment order. -/
theorem formatted_text_join (segments : List Segment) :
    format_segments "formatted_text" segments =
      joinedBy "\n" (segments.map fun seg => pyLstrip seg.text) := by
  unfold format_segments joinedBy
  rw [if_neg (by decide), if_pos rfl]
  rw [joinWith_eq_intercalate]
  congr 1
  simp [List.map_map]
  rfl

/-- Claim C4: every unknown format selector produces exactly the plain_text
output and triggers the warning branch. -/
theorem unknown_format_falls_back_to_plain_text (fmt : String) (segments : List Segment)
    (h : fmt ∉ ["plain_text", "formatted_text", "srt", "vtt"]) :
    format_segments fmt segments = format_segments "plain_text" segments ∧
      formatWarns fmt = true := by
  simp only [List.mem_cons, List.not_mem_nil, or_false, not_or] at h
  obtain ⟨h1, h2, h3, h4⟩ := h
  constructor
  · unfold format_segments
    rw [if_neg h1, if_neg h2, if_neg h3, if_neg h4, if_pos rfl]
  · simp [formatWarns, h1, h2, h3, h4]

theorem unknown_format_falls_back_to_plain_text_witness :
    ("word_document" : String) ∉ ["plain_text", "formatted_text", "srt", "vtt"] ∧
      (format_segments "word_document" [demoSegment] =
          format_segments "plain_text" [demoSegment] ∧
        formatWarns "word_document" = true) :=
  ⟨by decide, unknown_format_falls_back_to_plain_text "word_document" [demoSegment] (by decide)⟩

/-- Claim C5: for a segment whose text contains the literal arrow, the
segment's text line in both the srt and the vtt output is the stripped text
with every leftmost non-overlapping occurrence of the arrow rewritten to the
shortened arrow (the parts around the occurrences joined by the shortened
arrow). -/
theorem arrow_rewritten_in_srt_and_vtt (pre post : List Segment) (seg : Segment)
    (h : pyContains seg.text arrowPat = true) :
    write_srt (pre ++ seg :: post) =
        write_srt pre ++
          (toString (pre.length + 1) ++ "\n" ++
            format_timestamp seg.start true "," ++ " --> " ++
            format_timestamp seg.end_ true "," ++ "\n" ++
            rewriteEveryArrow (pyStrip seg.text) ++ "\n" ++ "\n") ++
          srtBlocks (pre.length + 2) post ∧
      write_vtt (pre ++ seg :: post) =
        write_vtt pre ++
          (format_timestamp seg.start true "." ++ " --> " ++
            format_timestamp seg.end_ true "." ++ "\n" ++
            rewriteEveryArrow (pyStrip seg.text) ++ "\n" ++ "\n") ++
          write_vtt post := by
  constructor
  · unfold write_srt
    rw [srtBlocks_append pre 1 (seg :: post)]
    simp only [srtBlocks]
    rw [← pyReplace_arrow_eq_rewriteEveryArrow]
    have e1 : 1 + pre.length = pre.length + 1 := Nat.add_comm 1 pre.length
    have e2 : pre.length + 1 + 1 = pre.length + 2 := rfl
    rw [e1, e2]
    simp [String.append_assoc]
  · rw [write_vtt_append pre (seg :: post)]
    simp only [write_vtt]
    rw [← pyReplace_arrow_eq_rewriteEveryArrow]
    simp [String.append_assoc]

theorem arrow_rewritten_in_srt_and_vtt_witness :
    pyContains arrowSegment.text arrowPat = true ∧
      write_srt [arrowSegment] = "1\n00:00:00,000 --> 00:00:01,500\na -> b\n\n" ∧
      write_vtt [arrowSegment] = "00:00:00.000 --> 00:00:01.500\na -> b\n\n" := by
  refine ⟨by decide, ?_, ?_⟩
  · exact ((arrow_rewritten_in_srt_and_vtt [] [] arrowSegment (by decide)).1).trans (by decide)
  · exact ((arrow_rewritten_in_srt_and_vtt [] [] arrowSegment (by decide)).2).trans (by decide)

/-- A transcribe behaviour used by the witnesses: one segment, language en. -/
def demoOracle : TranscribeCall → List Segment × TranscriptionInfo :=
  fun _ => ([demoSegment], { language := "en" })

/-- Witness arguments with the (unsupported) default model name. -/
def demoArgs : PredictArgs := { audio := "sample.wav" }

/-- Witness arguments naming the supported model. -/
def largeArgs : PredictArgs := { audio := "sample.wav", model_name := "large-v2" }

/-- Witness arguments requesting a translation pass. -/
def translateArgs : PredictArgs :=
  { audio := "sample.wav", model_name := "large-v2", translate := true }

/-- Witness arguments requesting word-level timestamps. -/
def wordArgs : PredictArgs :=
  { audio := "sample.wav", model_name := "large-v2", word_timestamps := true }

/-- A predictor state with the model loaded. -/
def loadedPredictor : Predictor := { model := some ⟨⟩ }

/-- Claim C6: for every unsupported model name, predict fails with the
invalid-model error message listing the allowed set, issues no transcribe
call, for every predictor state (setup completed or not) and all other
arguments. -/
theorem invalid_model_rejected_before_inference (st : Predictor) (a : PredictArgs)
    (oracle : TranscribeCall → List Segment × TranscriptionInfo) (cuda : Bool)
    (h : a.model_name ∉ AVAILABLE_MODELS) :
    st.predict a oracle cuda =
      (.error (.invalidModel ("Invalid model name: " ++ a.model_name ++
        ". Available models are: " ++ availableModelsRepr)), []) := by
  unfold Predictor.predict
  rw [if_pos h]

theorem invalid_model_rejected_before_inference_witness :
    demoArgs.model_name ∉ AVAILABLE_MODELS ∧
      loadedPredictor.predict demoArgs demoOracle true =
        (.error (.invalidModel ("Invalid model name: " ++ demoArgs.model_name ++
          ". Available models are: " ++ availableModelsRepr)), []) :=
  ⟨by decide, invalid_model_rejected_before_inference loadedPredictor demoArgs demoOracle true (by decide)⟩

/-- Claim C7: with the model reference unset, predict with a supported model
name fails with the model-not-loaded operational error (and issues no
transcribe call); conversely, after a successful setup predict with a
supported name succeeds, so the error branch is unreachable. -/
theorem model_not_loaded_error :
    (∀ (st : Predictor) (a : PredictArgs)
        (oracle : TranscribeCall → List Segment × TranscriptionInfo) (cuda : Bool),
        st.model = none → a.model_name ∈ AVAILABLE_MODELS →
        st.predict a oracle cuda =
          (.error (.modelNotLoaded "Model not loaded. Ensure setup() was called successfully."),
            [])) ∧
      (∀ (st₀ st₁ : Predictor) (m : Model) (a : PredictArgs)
          (oracle : TranscribeCall → List Segment × TranscriptionInfo) (cuda : Bool),
        st₀.setup (.ok m) = .ok st₁ → a.model_name ∈ AVAILABLE_MODELS →
        ∃ res trace, st₁.predict a oracle cuda = (.ok res, trace)) := by
  constructor
  · intro st a oracle cuda hnone hname
    unfold Predictor.predict
    rw [if_neg (not_not_intro hname), hnone]
  · intro st₀ st₁ m a oracle cuda hsetup hname
    have hmodel : st₁.model = some m := by
      unfold Predictor.setup at hsetup
      cases hsetup
      rfl
    exact ⟨_, _, predict_loaded st₁ a oracle cuda m hmodel hname⟩

theorem model_not_loaded_error_witness :
    (Predictor.init.model = none ∧ largeArgs.model_name ∈ AVAILABLE_MODELS ∧
        Predictor.init.predict largeArgs demoOracle false =
          (.error (.modelNotLoaded "Model not loaded. Ensure setup() was called successfully."),
            [])) ∧
      (Predictor.init.setup (.ok ⟨⟩) = .ok loadedPredictor ∧
        ∃ res trace, loadedPredictor.predict largeArgs demoOracle false = (.ok res, trace)) := by
  refine ⟨⟨rfl, by decide, ?_⟩, rfl, ?_⟩
  · exact model_not_loaded_error.1 Predictor.init largeArgs demoOracle false rfl (by decide)
  · exact model_not_loaded_error.2 Predictor.init loadedPredictor ⟨⟩ largeArgs demoOracle false rfl
      (by decide)

/-- Claim C8: when translation is not requested the translation field is None
and only the transcription pass runs; when it is requested, a second
transcribe pass with the translation task flag reusing the same temperature
configuration is issued, and its segments are formatted independently with the
translation selector to produce the translation field. -/
theorem translation_second_pass (st : Predictor) (a : PredictArgs)
    (oracle : TranscribeCall → List Segment × TranscriptionInfo) (cuda : Bool)
    (m : Model) (hm : st.model = some m) (hname : a.model_name ∈ AVAILABLE_MODELS) :
    ∃ res : PredictResults,
      (st.predict a oracle cuda).1 = .ok res ∧
      (a.translate = false →
        res.translation = none ∧ (st.predict a oracle cuda).2 = [mainCall a]) ∧
      (a.translate = true →
        (st.predict a oracle cuda).2 = [mainCall a, translateCall a] ∧
        (translateCall a).taskOf = "translate" ∧
        (translateCall a).temperatureOf = (mainCall a).temperatureOf ∧
        res.translation = some (format_segments a.translation (oracle (translateCall a)).1)) := by
  have h := predict_loaded st a oracle cuda m hm hname
  refine ⟨_, by rw [h], ?_, ?_⟩
  · intro ht
    constructor
    · simp [ht]
    · rw [h]
      simp [ht]
  · intro ht
    refine ⟨by rw [h]; simp [ht], rfl, rfl, by simp [ht]⟩

theorem translation_second_pass_witness :
    loadedPredictor.model = some ⟨⟩ ∧ translateArgs.model_name ∈ AVAILABLE_MODELS ∧
      ∃ res : PredictResults,
        (loadedPredictor.predict translateArgs demoOracle false).1 = .ok res ∧
        (translateArgs.translate = false →
          res.translation = none ∧
            (loadedPredictor.predict translateArgs demoOracle false).2 =
              [mainCall translateArgs]) ∧
        (translateArgs.translate = true →
          (loadedPredictor.predict translateArgs demoOracle false).2 =
              [mainCall translateArgs, translateCall translateArgs] ∧
            (translateCall translateArgs).taskOf = "translate" ∧
            (translateCall translateArgs).temperatureOf =
              (mainCall translateArgs).temperatureOf ∧
            res.translation =
              some (format_segments translateArgs.translation
                (demoOracle (translateCall translateArgs)).1)) :=
  ⟨rfl, by decide,
    translation_second_pass loadedPredictor translateArgs demoOracle false ⟨⟩ rfl (by decide)⟩

/-- Claim C9: a successful predict call returns the serialized segments (each
carrying the segment's identifier, seek, start, end, text, token ids,
temperature, average log-probability, compression ratio and no-speech
probability), the detected language, the formatted transcription, the possibly
absent formatted translation, the device used and the model name, and it
carries a word_timestamps entry exactly when word-level timestamps were
requested, holding the flattened word entries over all segments in order. -/
theorem result_mapping_shape (st : Predictor) (a : PredictArgs)
    (oracle : TranscribeCall → List Segment × TranscriptionInfo) (cuda : Bool)
    (m : Model) (hm : st.model = some m) (hname : a.model_name ∈ AVAILABLE_MODELS) :
    ∃ (res : PredictResults) (trace : List TranscribeCall),
      st.predict a oracle cuda = (.ok res, trace) ∧
      res.segments = (oracle (mainCall a)).1.map (fun seg =>
        ({ id := seg.id
           seek := seg.seek
           start := seg.start
           end_ := seg.end_
           text := seg.text
           tokens := seg.tokens
           temperature := seg.temperature
           avg_logprob := seg.avg_logprob
           compression_ratio := seg.compression_ratio
           no_speech_prob := seg.no_speech_prob } : SerializedSegment)) ∧
      res.detected_language = (oracle (mainCall a)).2.language ∧
      res.transcription = format_segments a.transcription (oracle (mainCall a)).1 ∧
      res.translation = (if a.translate then
          some (format_segments a.translation (oracle (translateCall a)).1) else none) ∧
      res.device = (if cuda then "cuda" else "cpu") ∧
      res.model = a.model_name ∧
      (res.word_timestamps ≠ none ↔ a.word_timestamps = true) ∧
      (a.word_timestamps = true →
        res.word_timestamps = some (flattenWords (oracle (mainCall a)).1)) := by
  have h := predict_loaded st a oracle cuda m hm hname
  refine ⟨_, _, h, rfl, rfl, rfl, rfl, rfl, rfl, ?_, ?_⟩
  · cases hw : a.word_timestamps <;> simp [hw]
  · intro hw
    simp [hw]

theorem result_mapping_shape_witness :
    loadedPredictor.model = some ⟨⟩ ∧ wordArgs.model_name ∈ AVAILABLE_MODELS ∧
      ∃ (res : PredictResults) (trace : List TranscribeCall),
        loadedPredictor.predict wordArgs demoOracle false = (.ok res, trace) ∧
        res.segments = (demoOracle (mainCall wordArgs)).1.map (fun seg =>
          ({ id := seg.id
             seek := seg.seek
             start := seg.start
             end_ := seg.end_
             text := seg.text
             tokens := seg.tokens
             temperature := seg.temperature
             avg_logprob := seg.avg_logprob
             compression_ratio := seg.compression_ratio
             no_speech_prob := seg.no_speech_prob } : SerializedSegment)) ∧
        res.detected_language = (demoOracle (mainCall wordArgs)).2.language ∧
        res.transcription =
          format_segments wordArgs.transcription (demoOracle (mainCall wordArgs)).1 ∧
        res.translation = (if wordArgs.translate then
            some (format_segments wordArgs.translation
              (demoOracle (translateCall wordArgs)).1)
          else none) ∧
        res.device = (if false then "cuda" else "cpu") ∧
        res.model = wordArgs.model_name ∧
        (res.word_timestamps ≠ none ↔ wordArgs.word_timestamps = true) ∧
        (wordArgs.word_timestamps = true →
          res.word_timestamps = some (flattenWords (demoOracle (mainCall wordArgs)).1)) :=
  ⟨rfl, by decide,
    result_mapping_shape loadedPredictor wordArgs demoOracle false ⟨⟩ rfl (by decide)⟩

/-- Claim C10: the suppress_tokens argument of predict has no effect: two
calls differing only in it return identical outcomes and traces, and every
full transcribe call is issued with the fixed suppression list [-1]. -/
theorem suppress_tokens_has_no_effect :
    (∀ (st : Predictor) (a : PredictArgs)
        (oracle : TranscribeCall → List Segment × TranscriptionInfo) (cuda : Bool)
        (s₁ s₂ : String),
        st.predict { a with suppress_tokens := s₁ } oracle cuda =
          st.predict { a with suppress_tokens := s₂ } oracle cuda) ∧
      (∀ (st : Predictor) (a : PredictArgs)
          (oracle : TranscribeCall → List Segment × TranscriptionInfo) (cuda : Bool)
          (c : TranscribeCall),
        c ∈ (st.predict a oracle cuda).2 →
        ∀ l : List Int, c.suppressTokensOf = some l → l = [-1]) := by
  constructor
  · intro st a oracle cuda s₁ s₂
    rfl
  · intro st a oracle cuda c hc l hl
    rcases predict_trace_cases st a oracle cuda with h | h | h <;> rw [h] at hc
    · simp at hc
    · simp at hc
      subst hc
      simp [mainCall, TranscribeCall.suppressTokensOf] at hl
      first
      | exact hl
      | exact hl.symm
    · simp at hc
      rcases hc with hc | hc <;> subst hc
      · simp [mainCall, TranscribeCall.suppressTokensOf] at hl
        first
        | exact hl
        | exact hl.symm
      · simp [translateCall, TranscribeCall.suppressTokensOf] at hl

theorem suppress_tokens_has_no_effect_witness :
    (loadedPredictor.predict { largeArgs with suppress_tokens := "-1" } demoOracle false =
        loadedPredictor.predict { largeArgs with suppress_tokens := "7" } demoOracle false) ∧
      mainCall largeArgs ∈ (loadedPredictor.predict largeArgs demoOracle false).2 ∧
      (mainCall largeArgs).suppressTokensOf = some [-1] ∧
      ∀ l : List Int, (mainCall largeArgs).suppressTokensOf = some l → l = [-1] := by
  refine ⟨suppress_tokens_has_no_effect.1 loadedPredictor largeArgs demoOracle false "-1" "7",
    ?_, rfl, ?_⟩
  · have h := predict_loaded loadedPredictor largeArgs demoOracle false ⟨⟩ rfl (by decide)
    rw [h]
    simp [largeArgs]
  · intro l
    exact suppress_tokens_has_no_effect.2 loadedPredictor largeArgs demoOracle false
      (mainCall largeArgs)
      (by
        have h := predict_loaded loadedPredictor largeArgs demoOracle false ⟨⟩ rfl (by decide)
        rw [h]
        simp [largeArgs]) l
